import Mathlib

/-!
Verification of the `service-binding` crate: a shallow embedding of the
two-stage resolution pipeline (descriptor string → `Binding`, and
`Binding` → `Listener`/`Stream`) together with theorems settling the
specification claims.

External effects are modelled as explicit parameters:
* the process environment is a partial map `String → Option String`
  (`std::env::var` returns `Ok` exactly when the variable is present);
* hostname resolution (the non-literal path of `ToSocketAddrs`) is an
  oracle `String → Except String (List SocketAddr)`;
* the literal `SocketAddr` parser is ported faithfully from Rust
  `core::net::parser` (the code path `addr.to_socket_addrs()` takes
  before any name resolution).

Machine integers are modelled as `Nat`/`Int` with the explicit range
checks Rust's checked parsing performs.
-/

namespace ServiceBinding

/-- Errors of the crate (`lib.rs`, `enum Error`).  Payloads that carry an
underlying foreign error (`AddrParseError` / `io::Error` for `BadAddress`,
`ParseIntError` for `BadDescriptor`) are modelled as a `String` message or
dropped, since only the constructor is ever inspected. -/
inductive Error where
  | BadAddress (e : String)
  | BadDescriptor
  | DescriptorOutOfRange (n : Int)
  | DescriptorsMissing
  | UnsupportedScheme
deriving DecidableEq, Repr

/-- IP socket addresses as produced by Rust's literal parser:
`v4 a b c d port` for `a.b.c.d:port`, `v6 groups port scope` for
`[h₁:…:h₈%scope]:port` (eight 16-bit groups). -/
inductive SocketAddr where
  | v4 (a b c d : Nat) (port : Nat)
  | v6 (groups : List Nat) (port : Nat) (scopeId : Nat)
deriving DecidableEq, Repr

/-- Service binding (`service.rs`, `enum Binding`).  `FilePath` carries the
path as a string, `NamedPipe` the OS string. -/
inductive Binding where
  | FileDescriptor (fd : Int)
  | FilePath (path : String)
  | Sockets (addrs : List SocketAddr)
  | NamedPipe (path : String)
deriving DecidableEq, Repr

/-- `const SD_LISTEN_FDS_START: i32 = 3;` -/
def SD_LISTEN_FDS_START : Int := 3

/-- `str::strip_prefix` on character lists: `some rest` iff the first
argument is a prefix, leaving the remainder. -/
def stripPfxL : List Char → List Char → Option (List Char)
  | [], s => some s
  | p :: ps, s =>
    match s with
    | [] => none
    | c :: cs => if p = c then stripPfxL ps cs else none

/-- `str::strip_prefix`. -/
def stripPfx? (p s : String) : Option String :=
  (stripPfxL p.data s.data).map String.mk

/-- `char::to_digit(radix)`: digit value of `c` when it is a digit in the
given radix. -/
def charToDigit? (radix : Nat) (c : Char) : Option Nat :=
  let v :=
    if '0' ≤ c ∧ c ≤ '9' then some (c.toNat - '0'.toNat)
    else if 'a' ≤ c ∧ c ≤ 'z' then some (c.toNat - 'a'.toNat + 10)
    else if 'A' ≤ c ∧ c ≤ 'Z' then some (c.toNat - 'A'.toNat + 10)
    else none
  v.bind fun d => if d < radix then some d else none

/-- Accumulate decimal/hex digits with Rust's checked arithmetic: fails on
the first non-digit character or when the value reaches `bound`
(the checked-overflow condition of the target integer type). -/
def digitsVal? (radix bound : Nat) : List Char → Nat → Option Nat
  | [], acc => some acc
  | c :: cs, acc =>
    match charToDigit? radix c with
    | none => none
    | some d =>
      let acc' := acc * radix + d
      if bound ≤ acc' then none else digitsVal? radix bound cs acc'

/-- `str::parse::<i32>()`: optional sign, one or more decimal digits,
checked against the `i32` range. -/
def parseI32 (s : String) : Option Int :=
  match s.data with
  | [] => none
  | '+' :: rest =>
    if rest = [] then none else (digitsVal? 10 (2 ^ 31) rest 0).map Int.ofNat
  | '-' :: rest =>
    if rest = [] then none
    else (digitsVal? 10 (2 ^ 31 + 1) rest 0).map (fun n => -(n : Int))
  | cs => (digitsVal? 10 (2 ^ 31) cs 0).map Int.ofNat

/-- `str::parse::<usize>()` (64-bit): optional `+`, decimal digits, range
checked; a leading `-` is rejected outright. -/
def parseUsize (s : String) : Option Nat :=
  match s.data with
  | [] => none
  | '+' :: rest => if rest = [] then none else digitsVal? 10 (2 ^ 64) rest 0
  | cs => digitsVal? 10 (2 ^ 64) cs 0

/-- `usize as i32`: truncate to 32 bits, reinterpret as signed. -/
def i32cast (n : Nat) : Int :=
  if n % 2 ^ 32 < 2 ^ 31 then (n % 2 ^ 32 : Nat) else (n % 2 ^ 32 : Nat) - 2 ^ 32

/-- `str::split(sep)` on character lists (Rust semantics: the empty string
yields one empty piece, a trailing separator yields a trailing empty
piece). -/
def splitOnCharAux (sep : Char) : List Char → List Char → List (List Char)
  | [], acc => [acc.reverse]
  | c :: cs, acc =>
    if c = sep then acc.reverse :: splitOnCharAux sep cs []
    else splitOnCharAux sep cs (c :: acc)

/-- `names.split(':')` as a list of strings. -/
def splitOnChar (sep : Char) (s : String) : List String :=
  (splitOnCharAux sep s.data []).map String.mk

/-! ### The literal socket-address parser (`core::net::parser`) -/

/-- Parser on character lists: `some (a, rest)` consumes a prefix.
Failure backtracks by construction. -/
def P (α : Type) := List Char → Option (α × List Char)

/-- `Parser::read_given_char`. -/
def expectChar (c : Char) : P Unit := fun input =>
  match input with
  | [] => none
  | x :: xs => if x = c then some ((), xs) else none

/-- `Parser::read_number(radix, max_digits, allow_zero_prefix)` bounded by
the target type's size: reads digits, fails on overflow, on zero digits,
on more than `maxDigits` digits, and (unless allowed) on a redundant
leading zero. -/
def readNumAux (radix bound : Nat) (maxDigits : Option Nat) :
    List Char → Nat → Nat → Option (Nat × Nat × List Char)
  | [], acc, cnt => some (acc, cnt, [])
  | c :: cs, acc, cnt =>
    match charToDigit? radix c with
    | none => some (acc, cnt, c :: cs)
    | some d =>
      let acc' := acc * radix + d
      if bound ≤ acc' then none
      else
        match maxDigits with
        | some m =>
          if m < cnt + 1 then none
          else readNumAux radix bound maxDigits cs acc' (cnt + 1)
        | none => readNumAux radix bound maxDigits cs acc' (cnt + 1)

/-- `Parser::read_number`. -/
def readNumber (radix bound : Nat) (maxDigits : Option Nat)
    (allowZeroPfx : Bool) : P Nat := fun input =>
  let hasLeadingZero := match input with | '0' :: _ => true | _ => false
  match readNumAux radix bound maxDigits input 0 0 with
  | none => none
  | some (res, cnt, rest) =>
    if cnt = 0 then none
    else if !allowZeroPfx && hasLeadingZero && decide (1 < cnt) then none
    else some (res, rest)

/-- `Parser::read_ipv4_addr`: four octets (`u8`, at most three digits, no
redundant leading zero) separated by `.`. -/
def readIpv4 : P (Nat × Nat × Nat × Nat) := fun input => do
  let (a, r) ← readNumber 10 256 (some 3) false input
  let ((), r) ← expectChar '.' r
  let (b, r) ← readNumber 10 256 (some 3) false r
  let ((), r) ← expectChar '.' r
  let (c, r) ← readNumber 10 256 (some 3) false r
  let ((), r) ← expectChar '.' r
  let (d, r) ← readNumber 10 256 (some 3) false r
  some ((a, b, c, d), r)

/-- `Parser::read_separator(':', i, inner)`: every group but the first is
preceded by the separator. -/
def readSep (c : Char) (i : Nat) (inner : P α) : P α := fun input =>
  if i = 0 then inner input
  else
    match expectChar c input with
    | some (_, rest) => inner rest
    | none => none

/-- The group loop of `read_ipv6_addr` (`read_groups`): read up to `rem`
16-bit hex groups separated by `:`; when at least two slots remain, a
trailing embedded IPv4 address fills two groups and ends the scan (the
returned flag records that case). -/
def readGroupsAux : Nat → Nat → List Char → List Nat × Bool × List Char
  | 0, _, input => ([], false, input)
  | rem + 1, i, input =>
    let v4Attempt :=
      if 1 ≤ rem then
        match readSep ':' i readIpv4 input with
        | some ((a, b, c, d), rest) =>
          some ([a * 256 + b, c * 256 + d], true, rest)
        | none => none
      else none
    match v4Attempt with
    | some r => r
    | none =>
      match readSep ':' i (readNumber 16 65536 (some 4) true) input with
      | some (g, rest) =>
        let (gs, flag, rest') := readGroupsAux rem (i + 1) rest
        (g :: gs, flag, rest')
      | none => ([], false, input)

/-- `Parser::read_ipv6_addr`: eight groups, or `head::tail` with the gap
zero-filled; a head that ended in an embedded IPv4 address but is shorter
than eight groups is rejected. -/
def readIpv6 : P (List Nat) := fun input =>
  let (head, headV4, rest) := readGroupsAux 8 0 input
  if head.length = 8 then some (head, rest)
  else if headV4 then none
  else
    match expectChar ':' rest with
    | none => none
    | some (_, r1) =>
      match expectChar ':' r1 with
      | none => none
      | some (_, r2) =>
        let limit := 8 - (head.length + 1)
        let (tail, _, r3) := readGroupsAux limit 0 r2
        some (head ++ List.replicate (8 - head.length - tail.length) 0 ++ tail, r3)

/-- `Parser::read_port`: `:` followed by a `u16` (leading zeros allowed). -/
def readPort : P Nat := fun input => do
  let ((), r) ← expectChar ':' input
  readNumber 10 65536 none true r

/-- `Parser::read_socket_addr_v4`. -/
def readSocketAddrV4 : P SocketAddr := fun input => do
  let ((a, b, c, d), r) ← readIpv4 input
  let (port, r) ← readPort r
  some (.v4 a b c d port, r)

/-- `Parser::read_scope_id`: `%` followed by a `u32`. -/
def readScopeId : P Nat := fun input => do
  let ((), r) ← expectChar '%' input
  readNumber 10 (2 ^ 32) none true r

/-- `Parser::read_socket_addr_v6`: `[ip6(%scope)]:port`. -/
def readSocketAddrV6 : P SocketAddr := fun input => do
  let ((), r) ← expectChar '[' input
  let (groups, r) ← readIpv6 r
  let (scope, r) :=
    match readScopeId r with
    | some (s, r') => (s, r')
    | none => (0, r)
  let ((), r) ← expectChar ']' r
  let (port, r) ← readPort r
  some (.v6 groups port scope, r)

/-- `<SocketAddr as FromStr>::from_str`: IPv4 form, else IPv6 form, and
the whole input must be consumed. -/
def parseSocketAddr (s : String) : Option SocketAddr :=
  let attempt :=
    match readSocketAddrV4 s.data with
    | some r => some r
    | none => readSocketAddrV6 s.data
  match attempt with
  | some (a, []) => some a
  | _ => none

/-- `str::to_socket_addrs()`: a string that parses as a literal
`SocketAddr` yields exactly that address without consulting the resolver;
anything else goes through host:port resolution, modelled by the `dns`
oracle (its `Except` error is the underlying `io::Error`). -/
def toSocketAddrs (dns : String → Except String (List SocketAddr))
    (s : String) : Except String (List SocketAddr) :=
  match parseSocketAddr s with
  | some a => .ok [a]
  | none => dns s

/-! ### The resolver (`TryFrom<&str> for Binding`) -/

/-- The name-scanning loop of the named `fd://` lookup:
`for (fd_index, fd_name) in names.split(':').enumerate()` returning the
first index whose name matches and is below the declared count. -/
def scanNames : List String → Nat → String → Nat → Option Nat
  | [], _, _, _ => none
  | n :: rest, i, name, k =>
    if n = name ∧ i < k then some i else scanNames rest (i + 1) name k

/-- The `fd://<name>` sub-resolution (`service.rs` lines 180–220), on the
`cfg(not(target_os = "macos"))` branch for named lookups.  `env` models
`std::env::var`. -/
def fdResolve (env : String → Option String) (name : String) :
    Except Error Binding :=
  if name = "" then
    match env "LISTEN_FDS" with
    | some fds =>
      match parseI32 fds with
      | none => .error .BadDescriptor
      | some k =>
        if k ≠ 1 then .error (.DescriptorOutOfRange k)
        else .ok (.FileDescriptor SD_LISTEN_FDS_START)
    | none => .error .DescriptorsMissing
  else
    match parseI32 name with
    | some fd => .ok (.FileDescriptor fd)
    | none =>
      match env "LISTEN_FDNAMES", env "LISTEN_FDS" with
      | some names, some fds =>
        match parseUsize fds with
        | none => .error .BadDescriptor
        | some k =>
          match scanNames (splitOnChar ':' names) 0 name k with
          | some i => .ok (.FileDescriptor (SD_LISTEN_FDS_START + i32cast i))
          | none => .error .DescriptorsMissing
      | _, _ => .error .DescriptorsMissing

/-- `npipe://<rest>` normalization: an absolute pipe path (first char `.`,
`/` or `\`) has every `/` replaced by `\`; otherwise `\\.\pipe\<rest>` is
synthesized. -/
def npipeNormalize (file : String) : String :=
  match file.data.head? with
  | some c =>
    if c = '.' ∨ c = '/' ∨ c = '\\' then
      String.mk (file.data.map fun x => if x = '/' then '\\' else x)
    else "\\\\.\\pipe\\" ++ file
  | none => "\\\\.\\pipe\\" ++ file

/-- `tcp://<rest>` resolution: wrap resolver failure in `BadAddress`. -/
def tcpResolve (dns : String → Except String (List SocketAddr))
    (addr : String) : Except Error Binding :=
  match toSocketAddrs dns addr with
  | .ok addrs => .ok (.Sockets addrs)
  | .error err => .error (.BadAddress err)

/-- `TryFrom<&str> for Binding` (`service.rs` lines 179–239): ordered
prefix dispatch over `fd://`, `unix://`, `npipe://`, `tcp://`, and a
literal `\\` prefix. -/
def tryFromStr (env : String → Option String)
    (dns : String → Except String (List SocketAddr)) (s : String) :
    Except Error Binding :=
  match stripPfx? "fd://" s with
  | some name => fdResolve env name
  | none =>
    match stripPfx? "unix://" s with
    | some file => .ok (.FilePath file)
    | none =>
      match stripPfx? "npipe://" s with
      | some file => .ok (.NamedPipe (npipeNormalize file))
      | none =>
        match stripPfx? "tcp://" s with
        | some addr => tcpResolve dns addr
        | none =>
          if (stripPfx? "\\\\" s).isSome then .ok (.NamedPipe s)
          else .error .UnsupportedScheme

/-! ### The non-blocking wrapper (`From<TcpListener> for Listener`, …)

`while let Err(e) = h.set_nonblocking(true) { if e.kind() != WouldBlock { break } }`
The outcome of attempt `i` of `set_nonblocking` is given by an oracle:
`none` is `Ok(())`, `some k` is `Err` with kind `k`.  The loop is encoded
with explicit fuel; `runLoop o fuel i = some j` means the loop entered at
attempt `i` exits after attempt `j`. -/

/-- The error kinds the wrapper distinguishes (`std::io::ErrorKind`,
collapsed to the cases the code inspects). -/
inductive IoErrorKind where
  | WouldBlock
  | PermissionDenied
  | Other
deriving DecidableEq, Repr

/-- The `set_nonblocking` retry loop: exit at the first attempt that is
`Ok` (loop condition fails) or an error of a kind other than `WouldBlock`
(`break`); retry on `WouldBlock`. -/
def runLoop (o : Nat → Option IoErrorKind) : Nat → Nat → Option Nat
  | 0, _ => none
  | fuel + 1, i =>
    match o i with
    | none => some i
    | some k => if k = .WouldBlock then runLoop o fuel (i + 1) else some i

/-- Opened service listener (`enum Listener`).  A live Unix listener is
identified by the path it is bound to, a TCP listener by an abstract
handle number. -/
inductive Listener where
  | Unix (handle : String)
  | Tcp (handle : Nat)
  | NamedPipe (path : String)
deriving DecidableEq, Repr

/-- Client service connection (`enum Stream`). -/
inductive Stream where
  | Unix (handle : String)
  | Tcp (handle : Nat)
  | NamedPipe (path : String)
deriving DecidableEq, Repr

/-- `From<TcpListener> for Listener`: run the retry loop, then wrap the
handle unconditionally (when the loop exits at all, even via the `break`
on a non-transient error, the handle is returned as `Listener::Tcp`). -/
def fromTcpListener (o : Nat → Option IoErrorKind) (fuel : Nat) (h : Nat) :
    Option Listener :=
  (runLoop o fuel 0).map fun _ => Listener.Tcp h

/-- `From<TcpStream> for Stream`: same loop, same unconditional wrap. -/
def fromTcpStream (o : Nat → Option IoErrorKind) (fuel : Nat) (h : Nat) :
    Option Stream :=
  (runLoop o fuel 0).map fun _ => Stream.Tcp h

/-! ### The `FilePath` materializer (`TryFrom<Binding> for Listener`)

The filesystem and the bind syscall are modelled as explicit state:
`files` records which paths currently hold a (socket) file, `bindable`
records at which paths the OS lets a Unix listener be bound (directory
exists, permissions, …) — a property `bind` requires in addition to the
path being free. -/

/-- Filesystem/OS state for Unix-socket materialization. -/
structure Fs where
  bindable : String → Bool
  files : String → Bool

/-- `std::fs::remove_file(&path)` with the result discarded: the file at
`path`, when present, is gone afterwards; nothing else changes. -/
def removeFile (p : String) (fs : Fs) : Fs :=
  { fs with files := fun q => if q = p then false else fs.files q }

/-- `UnixListener::bind(path)`: succeeds iff the OS can bind there and no
file occupies the path (binding creates the socket file). -/
def bindUnixListener (p : String) (fs : Fs) : Except String (String × Fs) :=
  if fs.bindable p && !fs.files p then
    .ok (p, { fs with files := fun q => if q = p then true else fs.files q })
  else .error "bind failed"

/-- The `Binding::FilePath` arm of `TryFrom<Binding> for Listener`
(`service.rs` lines 261–265): `let _ = std::fs::remove_file(&path);`
then `Ok(UnixListener::bind(path)?.into())`.  (The non-blocking wrapper
applied by `.into()` is modelled separately by `runLoop`.) -/
def filePathToListener (p : String) (fs : Fs) : Except String (Listener × Fs) :=
  let fs1 := removeFile p fs
  match bindUnixListener p fs1 with
  | .ok (h, fs2) => .ok (.Unix h, fs2)
  | .error e => .error e

/-- `true` iff the computation succeeded. -/
def exceptOk : Except ε α → Bool
  | .ok _ => true
  | .error _ => false

/-- Two sequential listener materializations of `FilePath p`: the second
runs on the state the first left behind. -/
def materializeTwice (p : String) (fs : Fs) : Bool :=
  match filePathToListener p fs with
  | .ok (_, fs2) => exceptOk (filePathToListener p fs2)
  | .error _ => false

/-! ### The client endpoint parser (`endpoint.rs`) -/

/-- Client endpoint (`enum Endpoint`). -/
inductive Endpoint where
  | Http (url : String)
  | Unix (path : String) (extra : Option String)
deriving DecidableEq, Repr

/-- `FromStr for Endpoint` (`endpoint.rs` lines 25–37): `http://` or
`https://` keep the whole string as `Http`; `unix://` keeps the remainder
as `Unix` with no extra path; everything else is an error. -/
def endpointFromStr (s : String) : Except Unit Endpoint :=
  if (stripPfx? "http://" s).isSome || (stripPfx? "https://" s).isSome then
    .ok (.Http s)
  else
    match stripPfx? "unix://" s with
    | some path => .ok (.Unix path none)
    | none => .error ()

/-! ### Concrete environments and oracles for witnesses -/

/-- The empty environment: no variable set. -/
def envNone : String → Option String := fun _ => none

/-- Environment with only `LISTEN_FDS` set. -/
def envFds (v : String) : String → Option String := fun n =>
  if n = "LISTEN_FDS" then some v else none

/-- Environment with `LISTEN_FDNAMES` and `LISTEN_FDS` set. -/
def envNamed (names v : String) : String → Option String := fun n =>
  if n = "LISTEN_FDNAMES" then some names
  else if n = "LISTEN_FDS" then some v
  else none

/-- A resolver oracle that always fails. -/
def dnsFail : String → Except String (List SocketAddr) := fun _ =>
  .error "resolution failure"

/-- A filesystem in which every path is bindable and no file exists. -/
def fsFresh : Fs := ⟨fun _ => true, fun _ => false⟩

/-- A `set_nonblocking` oracle that fails with `WouldBlock` forever. -/
def allWouldBlock : Nat → Option IoErrorKind := fun _ => some .WouldBlock

/-- A `set_nonblocking` oracle that succeeds immediately. -/
def alwaysOk : Nat → Option IoErrorKind := fun _ => none

/-- A `set_nonblocking` oracle that fails with a non-transient kind. -/
def failPerm : Nat → Option IoErrorKind := fun _ => some .PermissionDenied

/-- The retry loop terminates: some amount of fuel makes it exit. -/
def loopTerminates (o : Nat → Option IoErrorKind) : Prop :=
  ∃ fuel, (runLoop o fuel 0).isSome = true

/-! ### Helper lemmas -/

theorem stripPfxL_append (p r : List Char) : stripPfxL p (p ++ r) = some r := by
  induction p with
  | nil => rfl
  | cons c cs ih => simp [stripPfxL, ih]

theorem stripPfx_append (p r : String) : stripPfx? p (p ++ r) = some r := by
  unfold stripPfx?
  rw [String.data_append, stripPfxL_append]
  rfl

theorem disp_fd (env dns rest) :
    tryFromStr env dns ("fd://" ++ rest) = fdResolve env rest := rfl

theorem disp_unix (env dns rest) :
    tryFromStr env dns ("unix://" ++ rest) = .ok (.FilePath rest) := rfl

theorem disp_npipe (env dns rest) :
    tryFromStr env dns ("npipe://" ++ rest) =
      .ok (.NamedPipe (npipeNormalize rest)) := rfl

theorem disp_tcp (env dns rest) :
    tryFromStr env dns ("tcp://" ++ rest) = tcpResolve dns rest := rfl

theorem disp_bs (env dns rest) :
    tryFromStr env dns ("\\\\" ++ rest) = .ok (.NamedPipe ("\\\\" ++ rest)) := rfl

/-! ### Claims -/

/-- C1: resolving `fd://` (empty name) reads `LISTEN_FDS`: a value that
parses to the integer `1` yields `FileDescriptor 3`; a value parsing to
any other integer `k` fails with `DescriptorOutOfRange k`; an unset
variable fails with `DescriptorsMissing`; a set but non-numeric value
fails with `BadDescriptor`. -/
theorem C1_fd_empty_resolution (env : String → Option String)
    (dns : String → Except String (List SocketAddr)) :
    (∀ s, env "LISTEN_FDS" = some s → parseI32 s = some 1 →
      tryFromStr env dns "fd://" = .ok (.FileDescriptor 3)) ∧
    (∀ s k, env "LISTEN_FDS" = some s → parseI32 s = some k → k ≠ 1 →
      tryFromStr env dns "fd://" = .error (.DescriptorOutOfRange k)) ∧
    (env "LISTEN_FDS" = none →
      tryFromStr env dns "fd://" = .error .DescriptorsMissing) ∧
    (∀ s, env "LISTEN_FDS" = some s → parseI32 s = none →
      tryFromStr env dns "fd://" = .error .BadDescriptor) := by
  refine ⟨fun s h1 h2 => ?_, fun s k h1 h2 h3 => ?_, fun h1 => ?_,
    fun s h1 h2 => ?_⟩ <;>
  · rw [show tryFromStr env dns "fd://" = fdResolve env "" from rfl]
    unfold fdResolve
    simp_all [SD_LISTEN_FDS_START]

/-- Witness for C1: with `LISTEN_FDS=1`, `fd://` resolves to
`FileDescriptor 3`. -/
theorem C1_fd_empty_resolution_witness :
    tryFromStr (envFds "1") dnsFail "fd://" = .ok (.FileDescriptor 3) :=
  (C1_fd_empty_resolution (envFds "1") dnsFail).1 "1" rfl rfl

theorem scanNames_eq_find (name : String) (k : Nat) :
    ∀ (l : List String) (i : Nat),
      scanNames l i name k =
        (List.find? (fun p => decide (p.2 = name ∧ p.1 < k))
          (List.enumFrom i l)).map Prod.fst := by
  intro l
  induction l with
  | nil => intro i; rfl
  | cons n rest ih =>
    intro i
    simp only [scanNames, List.enumFrom]
    by_cases h : n = name ∧ i < k
    · rw [if_pos h, List.find?_cons_of_pos _ (by simpa using h)]
      rfl
    · rw [if_neg h, List.find?_cons_of_neg _ (by simpa using h), ih]

/-- C2: on platforms without a native activation service, `fd://<name>`
for a non-empty, non-numeric `name` with both `LISTEN_FDNAMES` and
`LISTEN_FDS` set resolves to `FileDescriptor (3 + i)` for the first
position `i` of the colon-separated name list whose entry equals `name`
and with `i` below the parsed count, and to `DescriptorsMissing` when no
such position exists; a missing variable also yields
`DescriptorsMissing`.  Concretely, `fd://service-name` with
`LISTEN_FDNAMES=other:service-name` resolves to `FileDescriptor 4` under
`LISTEN_FDS=2` and fails with `DescriptorsMissing` under
`LISTEN_FDS=1`. -/
theorem C2_fd_named_resolution :
    (∀ env dns name names cnt k,
      name ≠ "" → parseI32 name = none →
      env "LISTEN_FDNAMES" = some names → env "LISTEN_FDS" = some cnt →
      parseUsize cnt = some k →
      tryFromStr env dns ("fd://" ++ name) =
        match List.find? (fun p => decide (p.2 = name ∧ p.1 < k))
            (List.enumFrom 0 (splitOnChar ':' names)) with
        | some p => .ok (.FileDescriptor (3 + i32cast p.1))
        | none => .error .DescriptorsMissing) ∧
    (∀ env dns name, name ≠ "" → parseI32 name = none →
      env "LISTEN_FDNAMES" = none →
      tryFromStr env dns ("fd://" ++ name) = .error .DescriptorsMissing) ∧
    (∀ env dns name, name ≠ "" → parseI32 name = none →
      env "LISTEN_FDS" = none →
      tryFromStr env dns ("fd://" ++ name) = .error .DescriptorsMissing) ∧
    tryFromStr (envNamed "other:service-name" "2") dnsFail "fd://service-name" =
      .ok (.FileDescriptor 4) ∧
    tryFromStr (envNamed "other:service-name" "1") dnsFail "fd://service-name" =
      .error .DescriptorsMissing := by
  refine ⟨?_, ?_, ?_, by rfl, by rfl⟩
  · intro env dns name names cnt k hne hnn h1 h2 hk
    rw [disp_fd]
    unfold fdResolve
    rw [if_neg hne]
    simp only [hnn, h1, h2, hk]
    rw [scanNames_eq_find]
    cases List.find? (fun p => decide (p.2 = name ∧ p.1 < k))
        (List.enumFrom 0 (splitOnChar ':' names)) with
    | none => rfl
    | some p => simp [SD_LISTEN_FDS_START]
  · intro env dns name hne hnn h1
    rw [disp_fd]
    unfold fdResolve
    rw [if_neg hne]
    simp only [hnn, h1]
  · intro env dns name hne hnn h1
    rw [disp_fd]
    unfold fdResolve
    rw [if_neg hne]
    cases h2 : env "LISTEN_FDNAMES" <;> simp only [hnn, h1, h2]

/-- Witness for C2: the first matching in-range position, concretely. -/
theorem C2_fd_named_resolution_witness :
    tryFromStr (envNamed "other:service-name" "2") dnsFail
      ("fd://" ++ "service-name") = .ok (.FileDescriptor 4) :=
  ((C2_fd_named_resolution).1 (envNamed "other:service-name" "2") dnsFail
    "service-name" "other:service-name" "2" 2 (by decide) (by decide)
    rfl rfl (by decide)).trans (by rfl)

/-- C5: `npipe://<rest>` with `rest` starting in `.`, `/` or `\` yields
`NamedPipe` of `rest` with every `/` replaced by `\`; any other `rest`
yields `NamedPipe` of `\\.\pipe\<rest>`; in particular `npipe://test` and
`npipe:////./pipe/test` both resolve to `NamedPipe "\\.\pipe\test"`. -/
theorem C5_npipe_resolution :
    (∀ env dns rest c, rest.data.head? = some c →
      (c = '.' ∨ c = '/' ∨ c = '\\') →
      tryFromStr env dns ("npipe://" ++ rest) =
        .ok (.NamedPipe
          (String.mk (rest.data.map fun x => if x = '/' then '\\' else x)))) ∧
    (∀ env dns rest,
      (∀ c, rest.data.head? = some c → ¬(c = '.' ∨ c = '/' ∨ c = '\\')) →
      tryFromStr env dns ("npipe://" ++ rest) =
        .ok (.NamedPipe ("\\\\.\\pipe\\" ++ rest))) ∧
    tryFromStr envNone dnsFail "npipe://test" =
      .ok (.NamedPipe "\\\\.\\pipe\\test") ∧
    tryFromStr envNone dnsFail "npipe:////./pipe/test" =
      .ok (.NamedPipe "\\\\.\\pipe\\test") := by
  refine ⟨?_, ?_, by rfl, by rfl⟩
  · intro env dns rest c hc hcond
    rw [disp_npipe]
    simp only [npipeNormalize, hc]
    rw [if_pos hcond]
  · intro env dns rest hnone
    rw [disp_npipe]
    cases hc : rest.data.head? with
    | none => simp only [npipeNormalize, hc]
    | some c =>
      simp only [npipeNormalize, hc]
      rw [if_neg (hnone c hc)]

/-- Witness for C5: `npipe:///x` (absolute form) maps `/` to `\`. -/
theorem C5_npipe_resolution_witness :
    tryFromStr envNone dnsFail "npipe:///x" = .ok (.NamedPipe "\\x") :=
  ((C5_npipe_resolution).1 envNone dnsFail "/x" '/' rfl (by decide)).trans
    (by rfl)

/-- C6: a `tcp://` remainder that parses as a literal socket address
resolves, under every environment and every resolver, to `Sockets` of
exactly that single address (the resolver is never consulted); a
non-literal remainder yields the resolver's list with order and
duplicates preserved. -/
theorem C6_tcp_literal_roundtrip :
    (∀ env dns rest a, parseSocketAddr rest = some a →
      tryFromStr env dns ("tcp://" ++ rest) = .ok (.Sockets [a])) ∧
    (∀ env dns rest addrs, parseSocketAddr rest = none → dns rest = .ok addrs →
      tryFromStr env dns ("tcp://" ++ rest) = .ok (.Sockets addrs)) := by
  constructor
  · intro env dns rest a h
    rw [disp_tcp]
    unfold tcpResolve toSocketAddrs
    rw [h]
  · intro env dns rest addrs h hd
    rw [disp_tcp]
    unfold tcpResolve toSocketAddrs
    rw [h, hd]

/-- Witness for C6: `tcp://127.0.0.1:8080` resolves to the literal
address. -/
theorem C6_tcp_literal_roundtrip_witness :
    tryFromStr envNone dnsFail "tcp://127.0.0.1:8080" =
      .ok (.Sockets [.v4 127 0 0 1 8080]) :=
  (C6_tcp_literal_roundtrip).1 envNone dnsFail "127.0.0.1:8080"
    (.v4 127 0 0 1 8080) (by decide)

/-- C7: a `tcp://` remainder that is not a literal socket address and on
which resolution fails yields `BadAddress` wrapping the underlying
error, with no internal retry (the result is exactly the single
resolver outcome). -/
theorem C7_tcp_failure (env : String → Option String)
    (dns : String → Except String (List SocketAddr)) (rest e : String)
    (h : parseSocketAddr rest = none) (hd : dns rest = .error e) :
    tryFromStr env dns ("tcp://" ++ rest) = .error (.BadAddress e) := by
  rw [disp_tcp]
  unfold tcpResolve toSocketAddrs
  rw [h, hd]

/-- Witness for C7: `tcp://::8080` is not a literal and fails with
`BadAddress` wrapping the resolver error. -/
theorem C7_tcp_failure_witness :
    tryFromStr envNone dnsFail "tcp://::8080" =
      .error (.BadAddress "resolution failure") :=
  C7_tcp_failure envNone dnsFail "::8080" "resolution failure" (by decide) rfl

/-- C8: dispatch is by literal prefix over the fixed table: a string
matching none of `fd://`, `unix://`, `npipe://`, `tcp://`, `\\` fails
with `UnsupportedScheme` (e.g. `unknown://test` and `\test`), and a
string matching one of them is resolved by exactly that prefix's rule. -/
theorem C8_scheme_dispatch :
    (∀ env dns s,
      stripPfx? "fd://" s = none → stripPfx? "unix://" s = none →
      stripPfx? "npipe://" s = none → stripPfx? "tcp://" s = none →
      stripPfx? "\\\\" s = none →
      tryFromStr env dns s = .error .UnsupportedScheme) ∧
    (∀ env dns rest, tryFromStr env dns ("fd://" ++ rest) = fdResolve env rest) ∧
    (∀ env dns rest,
      tryFromStr env dns ("unix://" ++ rest) = .ok (.FilePath rest)) ∧
    (∀ env dns rest, tryFromStr env dns ("npipe://" ++ rest) =
      .ok (.NamedPipe (npipeNormalize rest))) ∧
    (∀ env dns rest, tryFromStr env dns ("tcp://" ++ rest) = tcpResolve dns rest) ∧
    (∀ env dns rest, tryFromStr env dns ("\\\\" ++ rest) =
      .ok (.NamedPipe ("\\\\" ++ rest))) ∧
    tryFromStr envNone dnsFail "unknown://test" = .error .UnsupportedScheme ∧
    tryFromStr envNone dnsFail "\\test" = .error .UnsupportedScheme := by
  refine ⟨?_, disp_fd, disp_unix, disp_npipe, disp_tcp, disp_bs,
    by rfl, by rfl⟩
  intro env dns s h1 h2 h3 h4 h5
  unfold tryFromStr
  simp [h1, h2, h3, h4, h5]

/-- Witness for C8: the no-prefix case at `unknown://test`. -/
theorem C8_scheme_dispatch_witness :
    tryFromStr (envFds "1") dnsFail "unknown://test" = .error .UnsupportedScheme :=
  (C8_scheme_dispatch).1 (envFds "1") dnsFail "unknown://test" rfl rfl rfl rfl rfl

/-- C10: the `Endpoint` parser accepts exactly three prefixes: `http://`
and `https://` yield `Http` carrying the whole original string, `unix://`
yields `Unix` of the remainder with the optional path always `none`, and
every other string fails. -/
theorem C10_endpoint_parsing :
    (∀ s rest, s = "http://" ++ rest → endpointFromStr s = .ok (.Http s)) ∧
    (∀ s rest, s = "https://" ++ rest → endpointFromStr s = .ok (.Http s)) ∧
    (∀ rest, endpointFromStr ("unix://" ++ rest) = .ok (.Unix rest none)) ∧
    (∀ s, stripPfx? "http://" s = none → stripPfx? "https://" s = none →
      stripPfx? "unix://" s = none → endpointFromStr s = .error ()) := by
  refine ⟨?_, ?_, fun rest => rfl, ?_⟩
  · rintro s rest rfl
    rfl
  · rintro s rest rfl
    rfl
  · intro s h1 h2 h3
    unfold endpointFromStr
    simp [h1, h2, h3]

/-- Witness for C10: `http://localhost` parses to `Http` of itself. -/
theorem C10_endpoint_parsing_witness :
    endpointFromStr "http://localhost" = .ok (.Http "http://localhost") :=
  (C10_endpoint_parsing).1 "http://localhost" "localhost" rfl

/-- C3: materializing `FilePath p` first removes any pre-existing file at
`p` (ignoring that removal's outcome) and then binds a fresh Unix
listener there; consequently, at every path the OS lets a listener be
bound, a single materialization succeeds — whatever file was there
before — and two sequential materializations both succeed (the second
silently removes the first's leftover socket file). -/
theorem C3_filepath_materialize_twice (fs : Fs) (p : String)
    (h : fs.bindable p = true) :
    exceptOk (filePathToListener p fs) = true ∧
      materializeTwice p fs = true := by
  constructor
  · unfold filePathToListener bindUnixListener removeFile exceptOk
    simp [h]
  · unfold materializeTwice filePathToListener bindUnixListener removeFile
      exceptOk
    simp [h]

/-- Witness for C3 on a fresh filesystem at `/tmp/test`. -/
theorem C3_filepath_materialize_twice_witness :
    exceptOk (filePathToListener "/tmp/test" fsFresh) = true ∧
      materializeTwice "/tmp/test" fsFresh = true :=
  C3_filepath_materialize_twice fsFresh "/tmp/test" rfl

/-- C4: in the non-blocking wrapper, an attempt is retried exactly when
it fails with `WouldBlock`: an `Ok` outcome exits the loop, a `WouldBlock`
error retries, any other error kind aborts the loop at that attempt —
and whenever the loop exits, the handle is returned wrapped in the
`Tcp` variant as if the mode change had succeeded; no error value is
ever produced (the conversion's only outcomes are the wrapped handle or,
in the fuelled model, fuel exhaustion). -/
theorem C4_nonblocking_retry_policy :
    (∀ o fuel i, o i = none → runLoop o (fuel + 1) i = some i) ∧
    (∀ o fuel i, o i = some IoErrorKind.WouldBlock →
      runLoop o (fuel + 1) i = runLoop o fuel (i + 1)) ∧
    (∀ o fuel i k, o i = some k → k ≠ IoErrorKind.WouldBlock →
      runLoop o (fuel + 1) i = some i) ∧
    (∀ o fuel h n, runLoop o fuel 0 = some n →
      fromTcpListener o fuel h = some (Listener.Tcp h)) ∧
    (∀ o fuel h n, runLoop o fuel 0 = some n →
      fromTcpStream o fuel h = some (Stream.Tcp h)) ∧
    (∀ o fuel h, fromTcpListener o fuel h = none ∨
      fromTcpListener o fuel h = some (Listener.Tcp h)) := by
  refine ⟨?_, ?_, ?_, ?_, ?_, ?_⟩
  · intro o fuel i h
    simp [runLoop, h]
  · intro o fuel i h
    simp [runLoop, h]
  · intro o fuel i k h hk
    simp [runLoop, h, hk]
  · intro o fuel h n hr
    simp [fromTcpListener, hr]
  · intro o fuel h n hr
    simp [fromTcpStream, hr]
  · intro o fuel h
    unfold fromTcpListener
    cases runLoop o fuel 0 <;> simp

/-- Witness for C4: a persistent `PermissionDenied` aborts the loop at
the first attempt and the handle is still wrapped. -/
theorem C4_nonblocking_retry_policy_witness :
    runLoop failPerm 1 0 = some 0 ∧
      fromTcpListener failPerm 1 5 = some (Listener.Tcp 5) :=
  ⟨(C4_nonblocking_retry_policy).2.2.1 failPerm 0 0 .PermissionDenied rfl
      (by decide),
    (C4_nonblocking_retry_policy).2.2.2.1 failPerm 1 5 0 (by rfl)⟩

/-- C9 as stated is false: under the oracle whose every `set_nonblocking`
attempt fails with `WouldBlock`, the retry loop never exits — no amount
of fuel makes `runLoop` return — so the conversion does not terminate
for every outcome sequence. -/
theorem C9_retry_loop_unbounded :
    loopTerminates allWouldBlock = False := by
  apply eq_false
  rintro ⟨fuel, hf⟩
  have hall : ∀ f i, runLoop allWouldBlock f i = none := by
    intro f
    induction f with
    | zero => intro i; rfl
    | succ f ih => intro i; simp [runLoop, allWouldBlock, ih]
  rw [hall] at hf
  simp at hf

theorem runLoop_exits (o : Nat → Option IoErrorKind) :
    ∀ f i, (∃ j, j < f ∧ o (i + j) ≠ some IoErrorKind.WouldBlock) →
      (runLoop o f i).isSome = true := by
  intro f
  induction f with
  | zero =>
    rintro i ⟨j, hj, _⟩
    omega
  | succ f ih =>
    rintro i ⟨j, hj, hne⟩
    cases ho : o i with
    | none => simp [runLoop, ho]
    | some k =>
      by_cases hk : k = IoErrorKind.WouldBlock
      · subst hk
        have hj0 : j ≠ 0 := by
          rintro rfl
          exact hne (by simpa using ho)
        simp only [runLoop, ho, if_pos rfl]
        exact ih (i + 1)
          ⟨j - 1, by omega, by rw [show i + 1 + (j - 1) = i + j by omega]; exact hne⟩
      · simp [runLoop, ho, hk]

/-- C9 amended: the retry loop terminates for every outcome sequence in
which some attempt does not fail with `WouldBlock` (an `Ok` or an error
of any other kind); only a sequence of `WouldBlock` failures with no end
keeps it running. -/
theorem C9_retry_loop_terminates (o : Nat → Option IoErrorKind)
    (h : ∃ n, o n ≠ some IoErrorKind.WouldBlock) : loopTerminates o := by
  obtain ⟨n, hn⟩ := h
  exact ⟨n + 1, runLoop_exits o (n + 1) 0 ⟨n, by omega, by simpa using hn⟩⟩

/-- Witness for C9 (amended): an immediately succeeding oracle. -/
theorem C9_retry_loop_terminates_witness : loopTerminates alwaysOk :=
  C9_retry_loop_terminates alwaysOk ⟨0, by simp [alwaysOk]⟩

end ServiceBinding
